import Mathlib

/-!
Shallow embedding of `src/phoenix/db/pg_token.py`: the database
authentication token cache (Token, token sources, CachedTokenProvider,
process-wide singleton), together with theorems settling the spec claims.

Modelling conventions:
* instants are seconds since the Unix epoch (`Int`); the code's
  `datetime.now(timezone.utc)` becomes an explicit `now : Int` argument;
* the process environment is a function `String → Option String`
  (`os.getenv`);
* Python exceptions become `Except String`, the string holding the
  exception message;
* `logger.warning` calls are collected in a `List String` of emitted
  warnings, returned alongside the result;
* Python truthiness of optional strings (`if not token_value`) is
  `pyTruthy`.
-/

namespace PgToken

/-- Python `str.isdigit()` restricted to the decimal digits `0`-`9`
(configuration values in scope are ASCII; the exotic Unicode digit
classes are outside the model). -/
def pyIsDigit (s : String) : Bool :=
  !s.toList.isEmpty && s.toList.all Char.isDigit

/-- Python whitespace as stripped by `str.strip()`. -/
def pyIsSpace (c : Char) : Bool :=
  c == ' ' || c == '\t' || c == '\n' || c == '\r' || c == '\x0b' || c == '\x0c'

/-- Python `str.strip()`. -/
def pyStrip (s : String) : String :=
  String.mk (((s.toList.dropWhile pyIsSpace).reverse.dropWhile pyIsSpace).reverse)

/-- Python `str.lower()` (ASCII range; the configuration strings in
scope are ASCII). -/
def pyLower (s : String) : String :=
  String.mk (s.toList.map Char.toLower)

/-- Python `s.startswith(c)` for a single-character needle. -/
def pyStartsWith (s : String) (c : Char) : Bool :=
  s.toList.head? == some c

/-- Python `int(s)` on a string of decimal digits. -/
def pyInt (s : String) : Int :=
  Int.ofNat (s.toList.foldl (fun a c => a * 10 + (c.toNat - 48)) 0)

/-- Truthiness of `Optional[str]`: `None` and `""` are falsy. -/
def pyTruthy : Option String → Bool
  | none => false
  | some s => s != ""

/-- Python `a or b` for strings (empty string is falsy). -/
def pyOrS (a b : String) : String :=
  if a = "" then b else a

/-- An `Optional[str]` read as a string, `None` ↦ `""` (for `or` chains). -/
def optS : Option String → String
  | none => ""
  | some s => s

/-- The process environment, as `os.getenv`. -/
def Env : Type := String → Option String

def ENV_TOKEN : String := "PHOENIX_POSTGRES_TOKEN"
def ENV_TOKEN_EXPIRES_AT : String := "PHOENIX_POSTGRES_TOKEN_EXPIRES_AT"
def ENV_TOKEN_TTL_SECONDS : String := "PHOENIX_POSTGRES_TOKEN_TTL_SECONDS"
def ENV_TOKEN_SKEW_SECONDS : String := "PHOENIX_POSTGRES_TOKEN_SKEW_SECONDS"
def ENV_TOKEN_CMD : String := "PHOENIX_POSTGRES_TOKEN_CMD"
def ENV_TOKEN_CMD_TIMEOUT_SECONDS : String := "PHOENIX_POSTGRES_TOKEN_CMD_TIMEOUT_SECONDS"
def ENV_AUTH_MODE : String := "PHOENIX_POSTGRES_AUTH_MODE"
def ENV_AZURE_AUTH_MODE : String := "PHOENIX_AZURE_AUTH_MODE"
def ENV_AZURE_IAM_CLIENT_ID : String := "PHOENIX_AZURE_IAM_CLIENT_ID"
def ENV_AZURE_SCOPE : String := "PHOENIX_AZURE_SCOPE"
def DEFAULT_AZURE_PG_SCOPE : String :=
  "https://ossrdbms-aad.database.windows.net/.default"

/-- `@dataclass(frozen=True) class Token`: value plus optional absolute
expiry (epoch seconds, always UTC-normalized). -/
structure Token where
  value : String
  expires_at : Option Int
deriving DecidableEq, Repr

instance exceptDecEq {ε α : Type} [DecidableEq ε] [DecidableEq α] :
    DecidableEq (Except ε α) := fun x y =>
  match x, y with
  | .ok a, .ok b =>
      if h : a = b then .isTrue (by rw [h])
      else .isFalse (fun hc => h (Except.ok.inj hc))
  | .error a, .error b =>
      if h : a = b then .isTrue (by rw [h])
      else .isFalse (fun hc => h (Except.error.inj hc))
  | .ok _, .error _ => .isFalse (fun hc => Except.noConfusion hc)
  | .error _, .ok _ => .isFalse (fun hc => Except.noConfusion hc)

/-- `Token.is_expired`: `now >= expires_at - timedelta(seconds=skew)`;
`False` when `expires_at is None`. -/
def Token.is_expired (t : Token) (skew_seconds : Int) (now : Int) : Bool :=
  match t.expires_at with
  | none => false
  | some e => decide (now ≥ e - skew_seconds)

/-! ## ISO-8601 parsing (`datetime.fromisoformat` subset, `_parse_iso8601`)

A parsed timestamp before UTC normalization.  `tzOffset` is the zone
offset in seconds east of UTC; `none` is a naive datetime. -/

structure PyDatetime where
  year : Int
  month : Nat
  day : Nat
  hour : Nat
  minute : Nat
  second : Nat
  tzOffset : Option Int
deriving DecidableEq, Repr

/-- Read exactly `k` decimal digits as a `Nat`, returning the rest. -/
def readFixedNat (k : Nat) (cs : List Char) : Option (Nat × List Char) :=
  let pre := cs.take k
  if pre.length == k && pre.all Char.isDigit then
    some (pre.foldl (fun a c => a * 10 + (c.toNat - 48)) 0, cs.drop k)
  else
    none

/-- Expect one specific character. -/
def expectChar (c : Char) : List Char → Option (List Char)
  | [] => none
  | d :: rest => if d = c then some rest else none

def isLeapYear (y : Int) : Bool :=
  y % 4 == 0 && (y % 100 != 0 || y % 400 == 0)

def daysInMonth (y : Int) (m : Nat) : Nat :=
  if m = 2 then (if isLeapYear y then 29 else 28)
  else if m = 4 ∨ m = 6 ∨ m = 9 ∨ m = 11 then 30
  else 31

/-- `YYYY-MM-DD`, with the validity checks `datetime` performs
(year 1–9999, month 1–12, day within the month). -/
def parseDate (cs : List Char) :
    Option ((Int × Nat × Nat) × List Char) := do
  let (y, cs) ← readFixedNat 4 cs
  let cs ← expectChar '-' cs
  let (m, cs) ← readFixedNat 2 cs
  let cs ← expectChar '-' cs
  let (d, cs) ← readFixedNat 2 cs
  if 1 ≤ y ∧ 1 ≤ m ∧ m ≤ 12 ∧ 1 ≤ d ∧ d ≤ daysInMonth (Int.ofNat y) m then
    some ((Int.ofNat y, m, d), cs)
  else
    none

/-- Optional fractional seconds `.d{1,6}`; the value is ignored (the
model works at second resolution, and no claim exercises microseconds). -/
def skipFraction (cs : List Char) : Option (List Char) :=
  match cs with
  | '.' :: rest =>
      let digs := rest.takeWhile Char.isDigit
      if 1 ≤ digs.length ∧ digs.length ≤ 6 then some (rest.drop digs.length)
      else none
  | _ => some cs

/-- `HH[:MM[:SS[.ffffff]]]`. -/
def parseTime (cs : List Char) :
    Option ((Nat × Nat × Nat) × List Char) := do
  let (h, cs) ← readFixedNat 2 cs
  let (mi, s, cs) ←
    match expectChar ':' cs with
    | none => some (0, 0, cs)
    | some cs => do
      let (mi, cs) ← readFixedNat 2 cs
      match expectChar ':' cs with
      | none => some (mi, 0, cs)
      | some cs => do
        let (s, cs) ← readFixedNat 2 cs
        let cs ← skipFraction cs
        some (mi, s, cs)
  if h ≤ 23 ∧ mi ≤ 59 ∧ s ≤ 59 then some ((h, mi, s), cs) else none

/-- Zone offset `±HH:MM[:SS]`, in seconds east of UTC. -/
def parseOffset (cs : List Char) : Option (Int × List Char) := do
  let (sign, cs) ←
    match cs with
    | '+' :: rest => some ((1 : Int), rest)
    | '-' :: rest => some ((-1 : Int), rest)
    | _ => none
  let (h, cs) ← readFixedNat 2 cs
  let cs ← expectChar ':' cs
  let (mi, cs) ← readFixedNat 2 cs
  let (s, cs) ←
    match expectChar ':' cs with
    | none => some (0, cs)
    | some cs => readFixedNat 2 cs
  if h ≤ 23 ∧ mi ≤ 59 ∧ s ≤ 59 then
    some (sign * (Int.ofNat h * 3600 + Int.ofNat mi * 60 + Int.ofNat s), cs)
  else
    none

/-- `datetime.fromisoformat`: `YYYY-MM-DD[<sep>HH[:MM[:SS[.ffffff]]][±HH:MM[:SS]]]`
(the separator may be any single character); `none` on any deviation,
modelling the `ValueError`. -/
def fromisoformat (str : String) : Option PyDatetime := do
  let ((y, m, d), cs) ← parseDate str.toList
  match cs with
  | [] => some ⟨y, m, d, 0, 0, 0, none⟩
  | _sep :: rest => do
    let ((h, mi, s), cs) ← parseTime rest
    match cs with
    | [] => some ⟨y, m, d, h, mi, s, none⟩
    | _ => do
      let (off, cs) ← parseOffset cs
      match cs with
      | [] => some ⟨y, m, d, h, mi, s, some off⟩
      | _ => none

/-- Days since 1970-01-01 of a civil date (proleptic Gregorian). -/
def daysFromCivil (y : Int) (m d : Nat) : Int :=
  let y : Int := if m ≤ 2 then y - 1 else y
  let era : Int := (if 0 ≤ y then y else y - 399) / 400
  let yoe : Int := y - era * 400
  let doy : Int :=
    (153 * (Int.ofNat m + (if 2 < m then -3 else 9)) + 2) / 5 + Int.ofNat d - 1
  let doe : Int := yoe * 365 + yoe / 4 - yoe / 100 + doy
  era * 146097 + doe - 719468

/-- Epoch seconds of a parsed timestamp, normalized to UTC: a naive
datetime is assumed UTC (`dt.replace(tzinfo=timezone.utc)`), an aware one
is converted (`dt.astimezone(timezone.utc)`), i.e. the offset is
subtracted. -/
def toUTCEpoch (dt : PyDatetime) : Int :=
  daysFromCivil dt.year dt.month dt.day * 86400
    + Int.ofNat dt.hour * 3600 + Int.ofNat dt.minute * 60 + Int.ofNat dt.second
    - (dt.tzOffset.getD 0)

/-- `_parse_iso8601`: a trailing `Z` is rewritten to `+00:00`, then
`fromisoformat`; parse failure yields `none` (the code logs a warning
and returns `None`). -/
def parse_iso8601 (value : String) : Option Int :=
  let v :=
    if value.toList.getLast? == some 'Z' then value.dropRight 1 ++ "+00:00"
    else value
  (fromisoformat v).map toUTCEpoch

/-- The warning `_parse_iso8601` logs exactly when parsing fails. -/
def parse_iso8601_logs (value : String) : List String :=
  match parse_iso8601 value with
  | some _ => []
  | none => ["Failed to parse token expiry: " ++ value]

/-! ## EnvTokenProvider -/

/-- The TTL fallback used by `EnvTokenProvider.get_token` (and again by
`CommandTokenProvider.get_token` and `AzureTokenProvider.get_token`):
`now + int(ttl)` when `PHOENIX_POSTGRES_TOKEN_TTL_SECONDS` is set to a
digit string, else `None`. -/
def ttlExpiry (env : Env) (now : Int) : Option Int :=
  match env ENV_TOKEN_TTL_SECONDS with
  | some ttl => if pyIsDigit ttl then some (now + pyInt ttl) else none
  | none => none

/-- `EnvTokenProvider.get_token`: the token string comes from
`PHOENIX_POSTGRES_TOKEN` (absent or empty ⇒ `RuntimeError`); the expiry
from `PHOENIX_POSTGRES_TOKEN_EXPIRES_AT` when that is set and non-empty
(parsed by `_parse_iso8601`), else from the TTL fallback. -/
def EnvTokenProvider.get_token (env : Env) (now : Int) :
    Except String Token × List String :=
  if pyTruthy (env ENV_TOKEN) = false then
    (.error ("Environment token not set. Please set " ++ ENV_TOKEN ++ "."), [])
  else
    let tv := optS (env ENV_TOKEN)
    if pyTruthy (env ENV_TOKEN_EXPIRES_AT) then
      let es := optS (env ENV_TOKEN_EXPIRES_AT)
      (.ok ⟨tv, parse_iso8601 es⟩, parse_iso8601_logs es)
    else
      (.ok ⟨tv, ttlExpiry env now⟩, [])

/-! ## CachedTokenProvider (sequential behaviour)

The provider's mutable state is its `Optional[Token]` cache slot.  A
single sequential `get_token` call is a function of the underlying
source (a function of the current time), the skew, the cache slot and
the time; it returns the result, the new cache slot, and how many times
the source was invoked during the call. -/

/-- Python `self._cached and not self._cached.is_expired(self._skew_seconds)`. -/
def cachedValid (cached : Option Token) (skew now : Int) : Bool :=
  match cached with
  | none => false
  | some t => !t.is_expired skew now

/-- The body under `with self._lock:`: re-check the cache, then refresh
via the source.  The source raising leaves the cache slot untouched and
propagates the error (the `with` block releases the lock either way). -/
def CachedTokenProvider.lockedRefresh (source : Int → Except String Token)
    (skew : Int) (cached : Option Token) (now : Int) :
    Except String Token × Option Token × Nat :=
  match cached with
  | some t =>
      if !t.is_expired skew now then (.ok t, cached, 0)
      else
        match source now with
        | .ok token => (.ok token, some token, 1)
        | .error e => (.error e, cached, 1)
  | none =>
      match source now with
      | .ok token => (.ok token, some token, 1)
      | .error e => (.error e, cached, 1)

/-- One sequential `CachedTokenProvider.get_token` call: fast-path check
without the lock, then the locked re-check-and-refresh (sequentially the
state is unchanged between the two checks). -/
def CachedTokenProvider.get_token (source : Int → Except String Token)
    (skew : Int) (cached : Option Token) (now : Int) :
    Except String Token × Option Token × Nat :=
  match cached with
  | some t =>
      if !t.is_expired skew now then (.ok t, cached, 0)
      else CachedTokenProvider.lockedRefresh source skew cached now
  | none => CachedTokenProvider.lockedRefresh source skew cached now

/-! ## JSON (`json.loads` subset used by CommandTokenProvider)

Numbers are kept as their raw text: the code never reads a numeric
value out of the payload (a non-string `token` or `expires_at` is only
ever type-tested). -/

inductive JVal where
  | jnull
  | jbool (b : Bool)
  | jnum (raw : String)
  | jstr (s : String)
  | jarr (xs : List JVal)
  | jobj (fields : List (String × JVal))

def jsonWS (c : Char) : Bool :=
  c == ' ' || c == '\t' || c == '\n' || c == '\r'

def skipWS (cs : List Char) : List Char :=
  cs.dropWhile jsonWS

def hexVal (c : Char) : Option Nat :=
  if '0' ≤ c ∧ c ≤ '9' then some (c.toNat - 48)
  else if 'a' ≤ c ∧ c ≤ 'f' then some (c.toNat - 87)
  else if 'A' ≤ c ∧ c ≤ 'F' then some (c.toNat - 55)
  else none

/-- JSON string body after the opening quote; standard escapes; raw
control characters are rejected. -/
def parseJStrAux : Nat → List Char → List Char → Option (String × List Char)
  | 0, _, _ => none
  | _ + 1, acc, '"' :: rest => some (String.mk acc.reverse, rest)
  | fuel + 1, acc, '\\' :: e :: rest =>
      match e with
      | '"' => parseJStrAux fuel ('"' :: acc) rest
      | '\\' => parseJStrAux fuel ('\\' :: acc) rest
      | '/' => parseJStrAux fuel ('/' :: acc) rest
      | 'b' => parseJStrAux fuel ('\x08' :: acc) rest
      | 'f' => parseJStrAux fuel ('\x0c' :: acc) rest
      | 'n' => parseJStrAux fuel ('\n' :: acc) rest
      | 'r' => parseJStrAux fuel ('\r' :: acc) rest
      | 't' => parseJStrAux fuel ('\t' :: acc) rest
      | 'u' =>
          match rest with
          | h1 :: h2 :: h3 :: h4 :: rest2 =>
              match hexVal h1, hexVal h2, hexVal h3, hexVal h4 with
              | some a, some b, some c, some d =>
                  let code := ((a * 16 + b) * 16 + c) * 16 + d
                  if h : code.isValidChar then
                    parseJStrAux fuel (Char.ofNatAux code h :: acc) rest2
                  else
                    -- lone surrogate halves; no claim exercises these
                    none
              | _, _, _, _ => none
          | _ => none
      | _ => none
  | fuel + 1, acc, c :: rest =>
      if c.toNat ≥ 32 then parseJStrAux fuel (c :: acc) rest else none
  | _, _, [] => none

/-- JSON number grammar: `-? (0 | [1-9][0-9]*) (. [0-9]+)? ([eE][+-]?[0-9]+)?`;
the consumed text is returned raw. -/
def parseJNum (cs : List Char) : Option (String × List Char) :=
  let (sign, cs1) :=
    match cs with
    | '-' :: r => ([('-' : Char)], r)
    | _ => (([] : List Char), cs)
  let intDigs := cs1.takeWhile Char.isDigit
  if intDigs.isEmpty then none
  else if intDigs.length > 1 ∧ intDigs.head? = some '0' then none
  else
    let cs2 := cs1.drop intDigs.length
    let stepFrac : Option (List Char × List Char) :=
      match cs2 with
      | '.' :: r =>
          let ds := r.takeWhile Char.isDigit
          if ds.isEmpty then none else some ('.' :: ds, r.drop ds.length)
      | _ => some ([], cs2)
    match stepFrac with
    | none => none
    | some (fracCs, cs3) =>
        let stepExp : Option (List Char × List Char) :=
          match cs3 with
          | e :: r =>
              if e == 'e' || e == 'E' then
                let (sgn, r2) :=
                  match r with
                  | '+' :: r2 => ([('+' : Char)], r2)
                  | '-' :: r2 => ([('-' : Char)], r2)
                  | _ => (([] : List Char), r)
                let ds := r2.takeWhile Char.isDigit
                if ds.isEmpty then none
                else some (e :: (sgn ++ ds), r2.drop ds.length)
              else some ([], cs3)
          | [] => some ([], cs3)
        match stepExp with
        | none => none
        | some (expCs, cs4) =>
            some (String.mk (sign ++ intDigs ++ fracCs ++ expCs), cs4)

mutual

def parseJVal (fuel : Nat) (cs : List Char) : Option (JVal × List Char) :=
  match fuel with
  | 0 => none
  | fuel + 1 =>
    let cs := skipWS cs
    match cs with
    | '"' :: rest =>
        (parseJStrAux (rest.length + 1) [] rest).map (fun (s, r) => (.jstr s, r))
    | 'n' :: 'u' :: 'l' :: 'l' :: rest => some (.jnull, rest)
    | 't' :: 'r' :: 'u' :: 'e' :: rest => some (.jbool true, rest)
    | 'f' :: 'a' :: 'l' :: 's' :: 'e' :: rest => some (.jbool false, rest)
    | '[' :: rest =>
        match skipWS rest with
        | ']' :: r2 => some (.jarr [], r2)
        | rest' => (parseJElems fuel rest').map (fun (vs, r) => (.jarr vs, r))
    | '\x7b' :: rest =>
        match skipWS rest with
        | '\x7d' :: r2 => some (.jobj [], r2)
        | rest' => (parseJMembers fuel rest').map (fun (fs, r) => (.jobj fs, r))
    | _ => (parseJNum cs).map (fun (raw, r) => (.jnum raw, r))

def parseJElems (fuel : Nat) (cs : List Char) : Option (List JVal × List Char) :=
  match fuel with
  | 0 => none
  | fuel + 1 =>
    match parseJVal fuel cs with
    | none => none
    | some (v, rest) =>
        match skipWS rest with
        | ',' :: r2 => (parseJElems fuel r2).map (fun (vs, r) => (v :: vs, r))
        | ']' :: r2 => some ([v], r2)
        | _ => none

def parseJMembers (fuel : Nat) (cs : List Char) :
    Option (List (String × JVal) × List Char) :=
  match fuel with
  | 0 => none
  | fuel + 1 =>
    match skipWS cs with
    | '"' :: rest =>
        match parseJStrAux (rest.length + 1) [] rest with
        | none => none
        | some (k, rest) =>
            match skipWS rest with
            | ':' :: r2 =>
                match parseJVal fuel r2 with
                | none => none
                | some (v, rest) =>
                    match skipWS rest with
                    | ',' :: r3 =>
                        (parseJMembers fuel r3).map (fun (fs, r) => ((k, v) :: fs, r))
                    | '\x7d' :: r3 => some ([(k, v)], r3)
                    | _ => none
            | _ => none
    | _ => none

end

/-- `json.loads`: parse a full document; trailing garbage or any parse
error is the `JSONDecodeError` case, i.e. `none`. -/
def json_loads (s : String) : Option JVal :=
  let cs := s.toList
  match parseJVal (cs.length + 1) cs with
  | some (v, rest) => if (skipWS rest).isEmpty then some v else none
  | none => none

/-- `payload.get(k)` on a parsed JSON object (later duplicate keys win,
as in a Python dict built from JSON). -/
def JVal.get : JVal → String → Option JVal
  | .jobj fields, k =>
      (fields.foldl (fun acc p => if p.1 = k then some p.2 else acc) none)
  | _, _ => none

/-! ## CommandTokenProvider -/

/-- `CommandTokenProvider.__init__`: requires `PHOENIX_POSTGRES_TOKEN_CMD`
(truthy); the timeout comes from
`PHOENIX_POSTGRES_TOKEN_CMD_TIMEOUT_SECONDS` when that is a digit
string, else defaults to 10. -/
structure CommandTokenProvider where
  cmd : String
  timeout : Int
deriving DecidableEq, Repr

def CommandTokenProvider.init (env : Env) : Except String CommandTokenProvider :=
  if pyTruthy (env ENV_TOKEN_CMD) = false then
    .error ("Token command not set. Please set " ++ ENV_TOKEN_CMD ++ ".")
  else
    .ok ⟨optS (env ENV_TOKEN_CMD),
         match env ENV_TOKEN_CMD_TIMEOUT_SECONDS with
         | some t => if pyIsDigit t then pyInt t else 10
         | none => 10⟩

/-- What `subprocess.run` produced: exit code, stdout, stderr. -/
structure CmdResult where
  returncode : Int
  stdout : String
  stderr : String
deriving DecidableEq, Repr

/-- The body of the `try:` block in `CommandTokenProvider.get_token`
after `subprocess.run` returned.  The detail text of a
`json.JSONDecodeError` is abstracted to `invalid JSON`. -/
def CommandTokenProvider.getTokenInner (env : Env) (res : CmdResult)
    (now : Int) : Except String Token × List String :=
  if res.returncode ≠ 0 then
    (.error ("Token command failed (exit " ++ toString res.returncode ++ "): "
      ++ pyStrip res.stderr), [])
  else
    let output := pyStrip res.stdout
    if pyStartsWith output '\x7b' then
      match json_loads output with
      | none => (.error "Failed to parse JSON token: invalid JSON", [])
      | some payload =>
          match payload.get "token" with
          | some (.jstr tokenValue) =>
              if tokenValue = "" then
                (.error "Failed to parse JSON token: JSON payload missing 'token' string field", [])
              else
                let (expires_at, logs) :=
                  match payload.get "expires_at" with
                  | some (.jstr es) => (parse_iso8601 es, parse_iso8601_logs es)
                  | _ => (none, [])
                match expires_at with
                | some e => (.ok ⟨tokenValue, some e⟩, logs)
                | none => (.ok ⟨tokenValue, ttlExpiry env now⟩, logs)
          | _ =>
              (.error "Failed to parse JSON token: JSON payload missing 'token' string field", [])
    else
      if output = "" then
        (.error "Token command produced no token value", [])
      else
        (.ok ⟨output, ttlExpiry env now⟩, [])

/-- `CommandTokenProvider.get_token`: the outer `except Exception` wraps
every failure — including an execution-layer exception from
`subprocess.run` itself (e.g. `TimeoutExpired`), given here as the
`.error` case of the input — into
`Failed to obtain token via command: ...`. -/
def CommandTokenProvider.get_token (env : Env) (res : Except String CmdResult)
    (now : Int) : Except String Token × List String :=
  match res with
  | .error e => (.error ("Failed to obtain token via command: " ++ e), [])
  | .ok r =>
      match CommandTokenProvider.getTokenInner env r now with
      | (.error e, logs) => (.error ("Failed to obtain token via command: " ++ e), logs)
      | ok => ok

/-! ## AzureTokenProvider (construction) -/

inductive AzureCredential where
  | managedIdentity (client_id : Option String)
  | defaultAzureCredential
  | suppliedCredential (id : String)
deriving DecidableEq, Repr

def azureMissingDepMsg : String :=
  "azure.identity is required for Azure token mode. Install with `pip install azure-identity`."

/-- `_get_azure_credential`: the `from azure.identity import ...` at the
top of the function raises when the dependency is unavailable
(`available = false`); otherwise the mode picks the credential. -/
def get_azure_credential (available : Bool) (mode : String)
    (client_id : Option String) : Except String AzureCredential :=
  if !available then .error azureMissingDepMsg
  else
    let mode := pyLower (pyStrip mode)
    if mode = "managed" then .ok (.managedIdentity client_id)
    else .ok .defaultAzureCredential

structure AzureTokenProvider where
  scope : String
  credential : AzureCredential
deriving DecidableEq, Repr

/-- `AzureTokenProvider.__init__`: scope from the argument or
`PHOENIX_AZURE_SCOPE` or the fixed default; mode and client id from the
arguments or their environment variables; `_get_azure_credential` runs
(and can fail) only when no credential was supplied. -/
def AzureTokenProvider.init (available : Bool) (env : Env)
    (scope : Option String) (credential : Option AzureCredential)
    (auth_mode : Option String) (client_id : Option String) :
    Except String AzureTokenProvider :=
  let scopeV := pyOrS (optS scope)
    (match env ENV_AZURE_SCOPE with
     | some s => s
     | none => DEFAULT_AZURE_PG_SCOPE)
  let mode := pyLower (pyStrip (pyOrS (optS auth_mode)
    (pyOrS (optS (env ENV_AZURE_AUTH_MODE)) "default")))
  let cid :=
    let s := pyOrS (optS client_id) (optS (env ENV_AZURE_IAM_CLIENT_ID))
    if s = "" then none else some s
  match credential with
  | some c => .ok ⟨scopeV, c⟩
  | none => (get_azure_credential available mode cid).map (fun c => ⟨scopeV, c⟩)

/-! ## Process-wide selector / singleton

The singleton state is the `Optional[CachedTokenProvider]` global.  A
base provider is one of the three configuration-derived variants or an
explicitly injected source of arbitrary type `α`
(`set_token_provider`).  The behaviour of a base provider's `get_token`
is supplied as `runBase` (each variant's function above, closed over its
extra inputs such as command results or credential behaviour). -/

inductive BaseProvider (α : Type) where
  | envP
  | cmdP (p : CommandTokenProvider)
  | azureP (p : AzureTokenProvider)
  | externalP (p : α)

/-- A `CachedTokenProvider` instance: wrapped source, skew, cache slot. -/
structure CachedProvider (α : Type) where
  provider : BaseProvider α
  skew_seconds : Int
  cached : Option Token

/-- `int(skew_env) if skew_env and skew_env.isdigit() else 60`. -/
def resolveSkew (env : Env) : Int :=
  match env ENV_TOKEN_SKEW_SECONDS with
  | some s => if pyIsDigit s then pyInt s else 60
  | none => 60

def defaultModeWarning : String :=
  ENV_TOKEN ++ " not set and " ++ ENV_AUTH_MODE ++
    " unspecified; falling back to env provider which will error if token is missing."

/-- `_build_provider_from_env`.  `config_mode` is the value returned by
`phoenix.config.get_env_postgres_auth_mode()` (that module is outside
the embedded sources; per its tests it returns `"azure"` or `""`), and
`azureAvailable` is whether `azure.identity` can be imported. -/
def build_provider_from_env (α : Type) (azureAvailable : Bool)
    (config_mode : String) (env : Env) :
    Except String (CachedProvider α) × List String :=
  let mode := pyLower (pyStrip (optS (env ENV_AUTH_MODE)))
  let skew := resolveSkew env
  if config_mode = "azure" ∨ mode = "azure" then
    match AzureTokenProvider.init azureAvailable env none none none none with
    | .ok p => (.ok ⟨.azureP p, skew, none⟩, [])
    | .error e => (.error e, [])
  else if mode = "token-env" ∨ mode = "env" then
    (.ok ⟨.envP, skew, none⟩, [])
  else if mode = "token-cmd" ∨ mode = "cmd" then
    match CommandTokenProvider.init env with
    | .ok p => (.ok ⟨.cmdP p, skew, none⟩, [])
    | .error e => (.error e, [])
  else
    (.ok ⟨.envP, skew, none⟩,
     if pyTruthy (env ENV_TOKEN) then [] else [defaultModeWarning])

/-- `set_token_provider(provider, skew_seconds=...)`: replaces the
singleton with a fresh `CachedTokenProvider` wrapping exactly the
supplied source. -/
def set_token_provider {α : Type} (env : Env) (p : α)
    (skew_seconds : Option Int) (_st : Option (CachedProvider α)) :
    Option (CachedProvider α) :=
  let skew :=
    match skew_seconds with
    | some k => k
    | none => resolveSkew env
  some ⟨.externalP p, skew, none⟩

/-- `clear_token_provider()`: drops the process-wide provider. -/
def clear_token_provider {α : Type} (_st : Option (CachedProvider α)) :
    Option (CachedProvider α) :=
  none

/-- Module-level `get_token()`: lazily build the singleton when absent
(a build failure propagates and leaves the global `None`), then delegate
to the cached provider.  The third component records whether
`_build_provider_from_env` ran during this call. -/
def singleton_get_token {α : Type} (azureAvailable : Bool)
    (config_mode : String) (env : Env)
    (runBase : BaseProvider α → Int → Except String Token)
    (st : Option (CachedProvider α)) (now : Int) :
    Except String Token × Option (CachedProvider α) × Bool :=
  match st with
  | none =>
      match (build_provider_from_env α azureAvailable config_mode env).1 with
      | .error e => (.error e, none, true)
      | .ok c =>
          let r := CachedTokenProvider.get_token (runBase c.provider)
            c.skew_seconds c.cached now
          (r.1, some { c with cached := r.2.1 }, true)
  | some c =>
      let r := CachedTokenProvider.get_token (runBase c.provider)
        c.skew_seconds c.cached now
      (r.1, some { c with cached := r.2.1 }, false)

/-! ## CachedTokenProvider under concurrent interleaving

Small-step interleaving semantics of N threads each running
`CachedTokenProvider.get_token` once, against one shared provider
instance.  Shared state: the cache slot, the `threading.Lock`, and a
ghost counter of underlying-source invocations.  Each thread is at one
of the program points of the method:

* `start`   — about to perform the unlocked fast-path check;
* `waiting` — fast path missed, blocked on `self._lock`;
* `locked`  — holds the lock, about to re-check the cache;
* `fetched t` — called `self._provider.get_token()` (which returned
  `t`), about to assign `self._cached` and release the lock;
* `done t`  — returned `t`.

The window is an expiry window: the wall clock is frozen at `now`, and
`srcPossible` is the set of tokens the underlying source may return at
that instant (the source is called while the caller holds the lock, so
a fetch is one atomic transition; the store and release are a separate
transition, so unlocked fast-path readers can interleave between the
fetch and the store, exactly as in the Python method). -/

inductive TState where
  | start
  | waiting
  | locked
  | fetched (t : Token)
  | done (t : Token)
deriving DecidableEq, Repr

structure Sys (n : Nat) where
  cached : Option Token
  lockHeld : Bool
  calls : Nat
  ts : Fin n → TState

/-- All threads at the first line of `get_token`, cache slot `c0`, lock
free, no source calls yet. -/
def Sys.init (n : Nat) (c0 : Option Token) : Sys n :=
  ⟨c0, false, 0, fun _ => .start⟩

/-- One interleaving step of one thread. -/
inductive Step (skew now : Int) (srcPossible : Token → Prop) {n : Nat} :
    Sys n → Sys n → Prop
  | fastHit (s : Sys n) (i : Fin n) (t : Token) :
      s.ts i = .start → s.cached = some t → t.is_expired skew now = false →
      Step skew now srcPossible s { s with ts := Function.update s.ts i (.done t) }
  | fastMiss (s : Sys n) (i : Fin n) :
      s.ts i = .start → cachedValid s.cached skew now = false →
      Step skew now srcPossible s { s with ts := Function.update s.ts i .waiting }
  | acquire (s : Sys n) (i : Fin n) :
      s.ts i = .waiting → s.lockHeld = false →
      Step skew now srcPossible s
        { s with lockHeld := true, ts := Function.update s.ts i .locked }
  | recheckHit (s : Sys n) (i : Fin n) (t : Token) :
      s.ts i = .locked → s.cached = some t → t.is_expired skew now = false →
      Step skew now srcPossible s
        { s with lockHeld := false, ts := Function.update s.ts i (.done t) }
  | fetch (s : Sys n) (i : Fin n) (t : Token) :
      s.ts i = .locked → cachedValid s.cached skew now = false → srcPossible t →
      Step skew now srcPossible s
        { s with calls := s.calls + 1, ts := Function.update s.ts i (.fetched t) }
  | store (s : Sys n) (i : Fin n) (t : Token) :
      s.ts i = .fetched t →
      Step skew now srcPossible s
        { s with cached := some t, lockHeld := false,
                 ts := Function.update s.ts i (.done t) }

/-- States reachable by interleaving. -/
def Reachable (skew now : Int) (srcPossible : Token → Prop) {n : Nat}
    (a b : Sys n) : Prop :=
  Relation.ReflTransGen (Step skew now srcPossible) a b

/-- At most one thread is at a point inside the critical section. -/
def lockedUnique {n : Nat} (s : Sys n) : Prop :=
  ∀ i j, s.ts i = .locked → s.ts j = .locked → i = j

/-- The lock is held exactly when some thread is at `locked`.
(Threads at `fetched` also hold the lock; those phases are tracked
separately in the invariant.) -/
def lockMatches {n : Nat} (s : Sys n) : Prop :=
  s.lockHeld = true ↔ ∃ i, s.ts i = .locked

/-- Phase A: no source call yet, cache still absent/expired. -/
def phaseA (skew now : Int) {n : Nat} (s : Sys n) : Prop :=
  s.calls = 0 ∧ cachedValid s.cached skew now = false ∧
    (∀ i, s.ts i = .start ∨ s.ts i = .waiting ∨ s.ts i = .locked) ∧
    lockMatches s ∧ lockedUnique s

/-- Phase B1: the single source call has happened; the fetching thread
still holds the lock and has not yet stored the token. -/
def phaseB1 (skew now : Int) (srcPossible : Token → Prop) {n : Nat}
    (s : Sys n) : Prop :=
  s.calls = 1 ∧ cachedValid s.cached skew now = false ∧ s.lockHeld = true ∧
    ∃ j t, srcPossible t ∧ s.ts j = .fetched t ∧
      ∀ i, i ≠ j → s.ts i = .start ∨ s.ts i = .waiting

/-- Phase B2: the refreshed token is in the cache slot; every finished
thread returned exactly that token. -/
def phaseB2 (srcPossible : Token → Prop) {n : Nat} (s : Sys n) : Prop :=
  s.calls = 1 ∧
    ∃ t, srcPossible t ∧ s.cached = some t ∧
      (∀ i, s.ts i = .start ∨ s.ts i = .waiting ∨ s.ts i = .locked ∨
        s.ts i = .done t) ∧
      lockMatches s ∧ lockedUnique s

/-- The inductive invariant of the refresh cycle. -/
def RefreshInv (skew now : Int) (srcPossible : Token → Prop) {n : Nat}
    (s : Sys n) : Prop :=
  phaseA skew now s ∨ phaseB1 skew now srcPossible s ∨ phaseB2 srcPossible s

/-! Concrete instantiation used by the witness: two threads, skew 60,
clock frozen at 0, source deterministically returning `srcTokC` (valid
until 1000), cache initially empty; thread 0 performs the whole refresh,
then thread 1 takes the fast path. -/

def srcTokC : Token := ⟨"tok", some 1000⟩

def srcPossibleC : Token → Prop := fun t => t = srcTokC

def s0C : Sys 2 := Sys.init 2 none
def s1C : Sys 2 := { s0C with ts := Function.update s0C.ts 0 .waiting }
def s2C : Sys 2 :=
  { s1C with lockHeld := true, ts := Function.update s1C.ts 0 .locked }
def s3C : Sys 2 :=
  { s2C with calls := s2C.calls + 1,
             ts := Function.update s2C.ts 0 (.fetched srcTokC) }
def s4C : Sys 2 :=
  { s3C with cached := some srcTokC, lockHeld := false,
             ts := Function.update s3C.ts 0 (.done srcTokC) }
def s5C : Sys 2 := { s4C with ts := Function.update s4C.ts 1 (.done srcTokC) }

/-! ## Concrete fixtures used by the witness theorems -/

/-- An environment holding exactly the given key/value pairs. -/
def envOf (l : List (String × String)) : Env :=
  fun k => (l.find? (fun p => p.1 == k)).map (fun p => p.2)

def tokW : Token := ⟨"tok", some 1000⟩
def oldTokW : Token := ⟨"old", some 1000⟩
def expTokW : Token := ⟨"old", some 50⟩
def srcW : Int → Except String Token := fun _ => .ok tokW
def srcErrW : Int → Except String Token := fun _ => .error "boom"
def envN : Env := fun _ => none
def runBaseW : BaseProvider Unit → Int → Except String Token :=
  fun _ _ => .ok tokW
def cachedW : CachedProvider Unit := ⟨.externalP (), 60, none⟩

/-! # Theorems -/

/-- A cache slot that fails the validity check holding a token means
that token is expired (within skew). -/
theorem cachedValid_some_false {t : Token} {skew now : Int}
    (h : cachedValid (some t) skew now = false) :
    t.is_expired skew now = true := by
  simpa [cachedValid] using h

/-- **C4.** For every Token and every skew value, `is_expired(skew)` is
true iff `expires_at` is present and `now >= expires_at - skew`; when
`expires_at` is absent it returns false regardless of skew. -/
theorem token_is_expired_iff :
    (∀ (t : Token) (skew now : Int),
        t.is_expired skew now = true ↔
          ∃ e, t.expires_at = some e ∧ e - skew ≤ now) ∧
    (∀ (v : String) (skew now : Int),
        (Token.mk v none).is_expired skew now = false) := by
  refine ⟨fun t skew now => ?_, fun v skew now => rfl⟩
  cases h : t.expires_at with
  | none => simp [Token.is_expired, h]
  | some e => simp [Token.is_expired, h, ge_iff_le]

/-- When the cache slot is absent or expired, one `get_token` call
invokes the source exactly once and mirrors its outcome. -/
theorem cached_get_token_invalid (source : Int → Except String Token)
    (skew : Int) (cached : Option Token) (now : Int)
    (h : cachedValid cached skew now = false) :
    CachedTokenProvider.get_token source skew cached now =
      match source now with
      | .ok tok => (.ok tok, some tok, 1)
      | .error e => (.error e, cached, 1) := by
  cases cached with
  | none =>
      simp only [CachedTokenProvider.get_token, CachedTokenProvider.lockedRefresh]
  | some t =>
      have hexp := cachedValid_some_false h
      simp [CachedTokenProvider.get_token, CachedTokenProvider.lockedRefresh, hexp]

/-- **C2.** Sequentially, with a source whose tokens expire at `E` and
skew `S`: a call while a cached token (expiring at `E`) exists and
`now < E - S` returns that same token without invoking the source; a
call with the cache absent, or while `now >= E - S`, invokes the source
exactly once, stores the new token and returns it. -/
theorem cached_provider_hit_and_refresh
    (source : Int → Except String Token) (S E : Int) :
    (∀ (t : Token) (now : Int), t.expires_at = some E → now < E - S →
        CachedTokenProvider.get_token source S (some t) now =
          (.ok t, some t, 0)) ∧
    (∀ (now : Int) (tok : Token), source now = .ok tok →
        CachedTokenProvider.get_token source S none now =
          (.ok tok, some tok, 1)) ∧
    (∀ (t : Token) (now : Int) (tok : Token), t.expires_at = some E →
        E - S ≤ now → source now = .ok tok →
        CachedTokenProvider.get_token source S (some t) now =
          (.ok tok, some tok, 1)) := by
  refine ⟨fun t now ht hlt => ?_, fun now tok hsrc => ?_,
    fun t now tok ht hle hsrc => ?_⟩
  · have hexp : t.is_expired S now = false := by
      simp [Token.is_expired, ht]
      omega
    simp [CachedTokenProvider.get_token, hexp]
  · rw [cached_get_token_invalid source S none now rfl, hsrc]
  · have hexp : cachedValid (some t) S now = false := by
      simp [cachedValid, Token.is_expired, ht]
      omega
    rw [cached_get_token_invalid source S (some t) now hexp, hsrc]

/-- Witness for C2 at concrete inputs. -/
theorem cached_provider_hit_and_refresh_witness :
    oldTokW.expires_at = some 1000 ∧ (100 : Int) < 1000 - 60 ∧
    CachedTokenProvider.get_token srcW 60 (some oldTokW) 100 =
      (.ok oldTokW, some oldTokW, 0) ∧
    CachedTokenProvider.get_token srcW 60 none 100 =
      (.ok tokW, some tokW, 1) ∧
    CachedTokenProvider.get_token srcW 60 (some oldTokW) 950 =
      (.ok tokW, some tokW, 1) :=
  ⟨rfl, by decide,
   (cached_provider_hit_and_refresh srcW 60 1000).1 oldTokW 100 rfl (by decide),
   (cached_provider_hit_and_refresh srcW 60 1000).2.1 100 tokW rfl,
   (cached_provider_hit_and_refresh srcW 60 1000).2.2 oldTokW 950 tokW rfl
     (by decide) rfl⟩

/-- **C3.** If the source raises during a refresh, the error propagates
and the cache slot is left exactly as it was; a subsequent call (cache
still invalid) invokes the source again. -/
theorem cached_provider_error_propagation
    (source : Int → Except String Token) (skew : Int) (cached : Option Token)
    (now now2 : Int) (e : String)
    (hinvalid : cachedValid cached skew now = false)
    (herr : source now = .error e)
    (hinvalid2 : cachedValid cached skew now2 = false) :
    CachedTokenProvider.get_token source skew cached now =
      (.error e, cached, 1) ∧
    (CachedTokenProvider.get_token source skew cached now2).2.2 = 1 := by
  constructor
  · rw [cached_get_token_invalid source skew cached now hinvalid, herr]
  · rw [cached_get_token_invalid source skew cached now2 hinvalid2]
    cases source now2 <;> rfl

/-- Witness for C3 at concrete inputs. -/
theorem cached_provider_error_propagation_witness :
    cachedValid (some expTokW) 60 100 = false ∧
    srcErrW 100 = .error "boom" ∧
    CachedTokenProvider.get_token srcErrW 60 (some expTokW) 100 =
      (.error "boom", some expTokW, 1) ∧
    (CachedTokenProvider.get_token srcErrW 60 (some expTokW) 200).2.2 = 1 := by
  have h := cached_provider_error_propagation srcErrW 60 (some expTokW) 100 200
    "boom" (by decide) rfl (by decide)
  exact ⟨by decide, rfl, h.1, h.2⟩

/-- **C5.** The environment source fails when the token value is absent
or empty; otherwise the expiry is, in priority order, the parse of the
absolute-expiry value when that is set (non-empty), else `now + TTL`
when the TTL value is a digit string, else no expiry.  Timestamps with a
zone offset normalize to UTC (`2025-01-01T14:00:00+02:00` equals
`2025-01-01T12:00:00Z`) and naive timestamps are assumed UTC. -/
theorem env_provider_spec :
    (∀ (env : Env) (now : Int), pyTruthy (env ENV_TOKEN) = false →
        EnvTokenProvider.get_token env now =
          (.error ("Environment token not set. Please set " ++ ENV_TOKEN ++ "."),
           [])) ∧
    (∀ (env : Env) (now : Int) (tv es : String),
        env ENV_TOKEN = some tv → tv ≠ "" →
        env ENV_TOKEN_EXPIRES_AT = some es → es ≠ "" →
        EnvTokenProvider.get_token env now =
          (.ok ⟨tv, parse_iso8601 es⟩, parse_iso8601_logs es)) ∧
    (∀ (env : Env) (now : Int) (tv ttl : String),
        env ENV_TOKEN = some tv → tv ≠ "" →
        pyTruthy (env ENV_TOKEN_EXPIRES_AT) = false →
        env ENV_TOKEN_TTL_SECONDS = some ttl → pyIsDigit ttl = true →
        EnvTokenProvider.get_token env now =
          (.ok ⟨tv, some (now + pyInt ttl)⟩, [])) ∧
    (∀ (env : Env) (now : Int) (tv : String),
        env ENV_TOKEN = some tv → tv ≠ "" →
        pyTruthy (env ENV_TOKEN_EXPIRES_AT) = false →
        (env ENV_TOKEN_TTL_SECONDS = none ∨
          ∃ ttl, env ENV_TOKEN_TTL_SECONDS = some ttl ∧ pyIsDigit ttl = false) →
        EnvTokenProvider.get_token env now = (.ok ⟨tv, none⟩, [])) ∧
    (parse_iso8601 "2025-01-01T14:00:00+02:00" =
        parse_iso8601 "2025-01-01T12:00:00Z" ∧
      parse_iso8601 "2025-01-01T14:00:00+02:00" = some 1735732800 ∧
      parse_iso8601 "2025-01-01T12:00:00" = some 1735732800) := by
  refine ⟨fun env now h => ?_, fun env now tv es htok htv hes hesne => ?_,
    fun env now tv ttl htok htv hexp httl hdig => ?_,
    fun env now tv htok htv hexp httl => ?_, by decide, by decide, by decide⟩
  · simp [EnvTokenProvider.get_token, h]
  · have h1 : pyTruthy (some tv) = true := by simp [pyTruthy, htv]
    have h2 : pyTruthy (some es) = true := by simp [pyTruthy, hesne]
    simp [EnvTokenProvider.get_token, h1, h2, htok, hes, optS]
  · have h1 : pyTruthy (some tv) = true := by simp [pyTruthy, htv]
    simp [EnvTokenProvider.get_token, h1, hexp, htok, optS, ttlExpiry, httl, hdig]
  · have h1 : pyTruthy (some tv) = true := by simp [pyTruthy, htv]
    have h3 : ttlExpiry env now = none := by
      rcases httl with h | ⟨ttl, hsome, hdig⟩
      · simp [ttlExpiry, h]
      · simp [ttlExpiry, hsome, hdig]
    simp [EnvTokenProvider.get_token, h1, hexp, htok, optS, h3]

/-- Witness for C5 at concrete inputs. -/
theorem env_provider_spec_witness :
    EnvTokenProvider.get_token envN 0 =
      (.error "Environment token not set. Please set PHOENIX_POSTGRES_TOKEN.",
       []) ∧
    EnvTokenProvider.get_token
        (envOf [(ENV_TOKEN, "abc"), (ENV_TOKEN_EXPIRES_AT, "2025-01-01T12:34:56Z")]) 0 =
      (.ok ⟨"abc", some 1735734896⟩, []) ∧
    EnvTokenProvider.get_token
        (envOf [(ENV_TOKEN, "xyz"), (ENV_TOKEN_TTL_SECONDS, "3600")]) 10 =
      (.ok ⟨"xyz", some 3610⟩, []) ∧
    EnvTokenProvider.get_token (envOf [(ENV_TOKEN, "xyz")]) 10 =
      (.ok ⟨"xyz", none⟩, []) := by
  refine ⟨?_, ?_, ?_, ?_⟩
  · have h := env_provider_spec.1 envN 0 rfl
    rw [h]; rfl
  · have h := env_provider_spec.2.1
      (envOf [(ENV_TOKEN, "abc"), (ENV_TOKEN_EXPIRES_AT, "2025-01-01T12:34:56Z")])
      0 "abc" "2025-01-01T12:34:56Z" (by decide) (by decide) (by decide) (by decide)
    rw [h]; decide
  · have h := env_provider_spec.2.2.1
      (envOf [(ENV_TOKEN, "xyz"), (ENV_TOKEN_TTL_SECONDS, "3600")])
      10 "xyz" "3600" (by decide) (by decide) (by decide) (by decide) (by decide)
    rw [h]; decide
  · have h := env_provider_spec.2.2.2.1 (envOf [(ENV_TOKEN, "xyz")]) 10 "xyz"
      (by decide) (by decide) (by decide) (Or.inl (by decide))
    rw [h]

/-- **C10.** A numeric configuration value that is not a plain
non-negative digit string is silently ignored (no error, no warning)
and the default applies: no expiry for the TTL, 60 for the skew, 10 for
the command timeout. -/
theorem numeric_env_values_silently_defaulted
    (s : String) (hs : pyIsDigit s = false) :
    (∀ (env : Env) (now : Int), env ENV_TOKEN_TTL_SECONDS = some s →
        ttlExpiry env now = none) ∧
    (∀ (env : Env) (now : Int) (tv : String),
        env ENV_TOKEN = some tv → tv ≠ "" →
        pyTruthy (env ENV_TOKEN_EXPIRES_AT) = false →
        env ENV_TOKEN_TTL_SECONDS = some s →
        EnvTokenProvider.get_token env now = (.ok ⟨tv, none⟩, [])) ∧
    (∀ env : Env, env ENV_TOKEN_SKEW_SECONDS = some s → resolveSkew env = 60) ∧
    (∀ (env : Env) (cmd : String), env ENV_TOKEN_CMD = some cmd → cmd ≠ "" →
        env ENV_TOKEN_CMD_TIMEOUT_SECONDS = some s →
        CommandTokenProvider.init env = .ok ⟨cmd, 10⟩) := by
  refine ⟨fun env now h => by simp [ttlExpiry, h, hs],
    fun env now tv htok htv hexp httl => ?_,
    fun env h => by simp [resolveSkew, h, hs],
    fun env cmd hcmd hcmdne htmo => ?_⟩
  · have h1 : pyTruthy (some tv) = true := by simp [pyTruthy, htv]
    simp [EnvTokenProvider.get_token, h1, hexp, htok, optS, ttlExpiry, httl, hs]
  · have h1 : pyTruthy (some cmd) = true := by simp [pyTruthy, hcmdne]
    simp [CommandTokenProvider.init, h1, hcmd, htmo, hs, optS]

/-- Witness for C10 at the concrete non-digit value `"-5"`. -/
theorem numeric_env_values_silently_defaulted_witness :
    pyIsDigit "-5" = false ∧
    resolveSkew (envOf [(ENV_TOKEN_SKEW_SECONDS, "-5")]) = 60 ∧
    CommandTokenProvider.init
        (envOf [(ENV_TOKEN_CMD, "fetch"), (ENV_TOKEN_CMD_TIMEOUT_SECONDS, "-5")]) =
      .ok ⟨"fetch", 10⟩ ∧
    EnvTokenProvider.get_token
        (envOf [(ENV_TOKEN, "tok"), (ENV_TOKEN_TTL_SECONDS, "-5")]) 0 =
      (.ok ⟨"tok", none⟩, []) := by
  have h := numeric_env_values_silently_defaulted "-5" (by decide)
  exact ⟨by decide,
    h.2.2.1 (envOf [(ENV_TOKEN_SKEW_SECONDS, "-5")]) (by decide),
    h.2.2.2 (envOf [(ENV_TOKEN_CMD, "fetch"), (ENV_TOKEN_CMD_TIMEOUT_SECONDS, "-5")])
      "fetch" (by decide) (by decide) (by decide),
    h.2.1 (envOf [(ENV_TOKEN, "tok"), (ENV_TOKEN_TTL_SECONDS, "-5")]) 0 "tok"
      (by decide) (by decide) (by decide) (by decide)⟩

/-- **C8.** Without an explicitly supplied credential, constructing the
Azure token source while `azure.identity` is unavailable fails at
construction time with the actionable install message; with a supplied
credential construction succeeds regardless of the dependency. -/
theorem azure_missing_dependency_fails_at_construction :
    (∀ (env : Env) (scope auth_mode client_id : Option String),
        AzureTokenProvider.init false env scope none auth_mode client_id =
          .error azureMissingDepMsg) ∧
    (∀ (env : Env) (scope auth_mode client_id : Option String)
        (c : AzureCredential) (available : Bool),
        ∃ p, AzureTokenProvider.init available env scope (some c) auth_mode
            client_id = .ok p ∧ p.credential = c) ∧
    azureMissingDepMsg =
      "azure.identity is required for Azure token mode. Install with `pip install azure-identity`." := by
  refine ⟨fun env scope auth_mode client_id => ?_,
    fun env scope auth_mode client_id c available => ?_, rfl⟩
  · simp [AzureTokenProvider.init, get_azure_credential, Except.map]
  · exact ⟨_, rfl, rfl⟩

/-- A successful inner result passes through the outer `except` wrapper. -/
theorem cmd_wrap_ok (env : Env) (r : CmdResult) (now : Int) {t : Token}
    {logs : List String}
    (h : CommandTokenProvider.getTokenInner env r now = (.ok t, logs)) :
    CommandTokenProvider.get_token env (.ok r) now = (.ok t, logs) := by
  simp [CommandTokenProvider.get_token, h]

/-- A failing inner result is re-wrapped by the outer `except`. -/
theorem cmd_wrap_err (env : Env) (r : CmdResult) (now : Int) {e : String}
    {logs : List String}
    (h : CommandTokenProvider.getTokenInner env r now = (.error e, logs)) :
    CommandTokenProvider.get_token env (.ok r) now =
      (.error ("Failed to obtain token via command: " ++ e), logs) := by
  simp [CommandTokenProvider.get_token, h]

/-- **C7.** The command source: non-zero exit fails with a message
carrying the exit code and trimmed stderr; with exit 0, a trimmed stdout
starting with a brace is parsed as JSON requiring a non-empty string
field `token` (malformed JSON or a missing/invalid/empty `token` field
fails with a parse-error message), otherwise the whole trimmed stdout is
the token; an empty resulting token fails; when no expiry came from the
JSON output the TTL fallback supplies the expiry, else there is none. -/
theorem command_provider_spec :
    (∀ (env : Env) (now : Int) (r : CmdResult), r.returncode ≠ 0 →
        CommandTokenProvider.get_token env (.ok r) now =
          (.error ("Failed to obtain token via command: Token command failed (exit "
            ++ toString r.returncode ++ "): " ++ pyStrip r.stderr), [])) ∧
    (∀ (env : Env) (now : Int) (r : CmdResult), r.returncode = 0 →
        pyStartsWith (pyStrip r.stdout) '\x7b' = true →
        json_loads (pyStrip r.stdout) = none →
        CommandTokenProvider.get_token env (.ok r) now =
          (.error "Failed to obtain token via command: Failed to parse JSON token: invalid JSON",
           [])) ∧
    (∀ (env : Env) (now : Int) (r : CmdResult) (payload : JVal),
        r.returncode = 0 → pyStartsWith (pyStrip r.stdout) '\x7b' = true →
        json_loads (pyStrip r.stdout) = some payload →
        ((∀ tv, payload.get "token" ≠ some (.jstr tv)) ∨
          payload.get "token" = some (.jstr "")) →
        CommandTokenProvider.get_token env (.ok r) now =
          (.error "Failed to obtain token via command: Failed to parse JSON token: JSON payload missing 'token' string field",
           [])) ∧
    (∀ (env : Env) (now : Int) (r : CmdResult) (payload : JVal) (tv es : String)
        (e : Int),
        r.returncode = 0 → pyStartsWith (pyStrip r.stdout) '\x7b' = true →
        json_loads (pyStrip r.stdout) = some payload →
        payload.get "token" = some (.jstr tv) → tv ≠ "" →
        payload.get "expires_at" = some (.jstr es) → parse_iso8601 es = some e →
        CommandTokenProvider.get_token env (.ok r) now =
          (.ok ⟨tv, some e⟩, [])) ∧
    (∀ (env : Env) (now : Int) (r : CmdResult) (payload : JVal) (tv : String),
        r.returncode = 0 → pyStartsWith (pyStrip r.stdout) '\x7b' = true →
        json_loads (pyStrip r.stdout) = some payload →
        payload.get "token" = some (.jstr tv) → tv ≠ "" →
        (∀ es, payload.get "expires_at" ≠ some (.jstr es)) →
        CommandTokenProvider.get_token env (.ok r) now =
          (.ok ⟨tv, ttlExpiry env now⟩, [])) ∧
    (∀ (env : Env) (now : Int) (r : CmdResult), r.returncode = 0 →
        pyStartsWith (pyStrip r.stdout) '\x7b' = false →
        pyStrip r.stdout ≠ "" →
        CommandTokenProvider.get_token env (.ok r) now =
          (.ok ⟨pyStrip r.stdout, ttlExpiry env now⟩, [])) ∧
    (∀ (env : Env) (now : Int) (r : CmdResult), r.returncode = 0 →
        pyStrip r.stdout = "" →
        CommandTokenProvider.get_token env (.ok r) now =
          (.error "Failed to obtain token via command: Token command produced no token value",
           [])) := by
  refine ⟨fun env now r hrc => ?_, fun env now r hrc hbr hload => ?_,
    fun env now r payload hrc hbr hload hbad => ?_,
    fun env now r payload tv es e hrc hbr hload hget htv hges hparse => ?_,
    fun env now r payload tv hrc hbr hload hget htv hges => ?_,
    fun env now r hrc hbr hne => ?_, fun env now r hrc hempty => ?_⟩
  · exact cmd_wrap_err env r now
      (by rw [CommandTokenProvider.getTokenInner, if_pos hrc]; rfl)
  · exact cmd_wrap_err env r now
      (by simp [CommandTokenProvider.getTokenInner, hrc, hbr, hload])
  · refine cmd_wrap_err env r now ?_
    rcases hbad with hbad | hbad
    · cases hget : payload.get "token" with
      | none => simp [CommandTokenProvider.getTokenInner, hrc, hbr, hload, hget]
      | some v =>
        cases v with
        | jstr tv => exact absurd hget (hbad tv)
        | jnull =>
            simp [CommandTokenProvider.getTokenInner, hrc, hbr, hload, hget]
        | jbool b =>
            simp [CommandTokenProvider.getTokenInner, hrc, hbr, hload, hget]
        | jnum raw =>
            simp [CommandTokenProvider.getTokenInner, hrc, hbr, hload, hget]
        | jarr xs =>
            simp [CommandTokenProvider.getTokenInner, hrc, hbr, hload, hget]
        | jobj fs =>
            simp [CommandTokenProvider.getTokenInner, hrc, hbr, hload, hget]
    · simp [CommandTokenProvider.getTokenInner, hrc, hbr, hload, hbad]
  · have hlogs : parse_iso8601_logs es = [] := by
      simp [parse_iso8601_logs, hparse]
    exact cmd_wrap_ok env r now
      (by simp [CommandTokenProvider.getTokenInner, hrc, hbr, hload, hget, htv,
        hges, hparse, hlogs])
  · refine cmd_wrap_ok env r now ?_
    cases hexp : payload.get "expires_at" with
    | none =>
        simp [CommandTokenProvider.getTokenInner, hrc, hbr, hload, hget, htv, hexp]
    | some v =>
      cases v with
      | jstr es => exact absurd hexp (hges es)
      | jnull =>
          simp [CommandTokenProvider.getTokenInner, hrc, hbr, hload, hget, htv, hexp]
      | jbool b =>
          simp [CommandTokenProvider.getTokenInner, hrc, hbr, hload, hget, htv, hexp]
      | jnum raw =>
          simp [CommandTokenProvider.getTokenInner, hrc, hbr, hload, hget, htv, hexp]
      | jarr xs =>
          simp [CommandTokenProvider.getTokenInner, hrc, hbr, hload, hget, htv, hexp]
      | jobj fs =>
          simp [CommandTokenProvider.getTokenInner, hrc, hbr, hload, hget, htv, hexp]
  · exact cmd_wrap_ok env r now
      (by simp [CommandTokenProvider.getTokenInner, hrc, hbr, hne])
  · have hbr : pyStartsWith "" '\x7b' = false := by decide
    exact cmd_wrap_err env r now
      (by simp [CommandTokenProvider.getTokenInner, hrc, hempty, hbr])

/-- Witness for C7 at concrete inputs. -/
theorem command_provider_spec_witness :
    CommandTokenProvider.get_token envN (.ok ⟨1, "", " boom "⟩) 0 =
      (.error "Failed to obtain token via command: Token command failed (exit 1): boom",
       []) ∧
    CommandTokenProvider.get_token envN (.ok ⟨0, "\x7bnot json", ""⟩) 0 =
      (.error "Failed to obtain token via command: Failed to parse JSON token: invalid JSON",
       []) ∧
    CommandTokenProvider.get_token envN (.ok ⟨0, "\x7b\"token\":\"\"\x7d", ""⟩) 0 =
      (.error "Failed to obtain token via command: Failed to parse JSON token: JSON payload missing 'token' string field",
       []) ∧
    CommandTokenProvider.get_token envN
        (.ok ⟨0, "\x7b\"token\":\"tok\",\"expires_at\":\"2025-01-01T00:00:00Z\"\x7d", ""⟩) 0 =
      (.ok ⟨"tok", some 1735689600⟩, []) ∧
    CommandTokenProvider.get_token (envOf [(ENV_TOKEN_TTL_SECONDS, "100")])
        (.ok ⟨0, "\x7b\"token\":\"tok\"\x7d", ""⟩) 7 =
      (.ok ⟨"tok", some 107⟩, []) ∧
    CommandTokenProvider.get_token (envOf [(ENV_TOKEN_TTL_SECONDS, "100")])
        (.ok ⟨0, "  tok2 ", ""⟩) 5 =
      (.ok ⟨"tok2", some 105⟩, []) ∧
    CommandTokenProvider.get_token envN (.ok ⟨0, "   ", ""⟩) 0 =
      (.error "Failed to obtain token via command: Token command produced no token value",
       []) := by
  have h := command_provider_spec
  refine ⟨?_, ?_, ?_, ?_, ?_, ?_, ?_⟩
  · exact (h.1 envN 0 ⟨1, "", " boom "⟩ (by decide)).trans (by rfl)
  · exact h.2.1 envN 0 ⟨0, "\x7bnot json", ""⟩ rfl rfl rfl
  · exact h.2.2.1 envN 0 ⟨0, "\x7b\"token\":\"\"\x7d", ""⟩
      (.jobj [("token", .jstr "")]) rfl rfl rfl (Or.inr rfl)
  · exact h.2.2.2.1 envN 0
      ⟨0, "\x7b\"token\":\"tok\",\"expires_at\":\"2025-01-01T00:00:00Z\"\x7d", ""⟩
      (.jobj [("token", .jstr "tok"), ("expires_at", .jstr "2025-01-01T00:00:00Z")])
      "tok" "2025-01-01T00:00:00Z" 1735689600 rfl rfl rfl rfl (by decide) rfl rfl
  · exact (h.2.2.2.2.1 (envOf [(ENV_TOKEN_TTL_SECONDS, "100")]) 7
      ⟨0, "\x7b\"token\":\"tok\"\x7d", ""⟩ (.jobj [("token", .jstr "tok")]) "tok"
      rfl rfl rfl rfl (by decide) (fun es hc => nomatch hc)).trans (by rfl)
  · exact (h.2.2.2.2.2.1 (envOf [(ENV_TOKEN_TTL_SECONDS, "100")]) 5
      ⟨0, "  tok2 ", ""⟩ rfl rfl (by decide)).trans (by rfl)
  · exact h.2.2.2.2.2.2 envN 0 ⟨0, "   ", ""⟩ rfl rfl

/-- **C6 (counterexample).** For the External-Command source, an
unparseable `expires_at` in the JSON output does not leave the Token's
expiry absent when a relative TTL is configured: the TTL fallback
applies, so the token carries `expires_at = some 100` (TTL 100, now 0),
contradicting the claim that the resulting Token always has `expires_at`
absent. -/
theorem unparseable_expiry_absent_counterexample :
    parse_iso8601 "garbage" = none ∧
    (CommandTokenProvider.get_token (envOf [(ENV_TOKEN_TTL_SECONDS, "100")])
        (.ok ⟨0, "\x7b\"token\":\"tok\",\"expires_at\":\"garbage\"\x7d", ""⟩) 0).1 =
      .ok ⟨"tok", some 100⟩ ∧
    (Token.mk "tok" (some 100)).expires_at ≠ none :=
  ⟨rfl, by decide, by decide⟩

/-- **C6 (amended).** An unparseable expiry timestamp is non-fatal: a
warning is logged and the token is still returned as valid, the expiry
being treated as not supplied — for the Static/Environment source the
resulting Token therefore has `expires_at` absent, while the
External-Command source then applies its relative-TTL fallback, so its
Token's `expires_at` is absent exactly when no TTL is configured. -/
theorem unparseable_expiry_nonfatal (s : String)
    (hbad : parse_iso8601 s = none) :
    (∀ (env : Env) (now : Int) (tv : String),
        env ENV_TOKEN = some tv → tv ≠ "" →
        env ENV_TOKEN_EXPIRES_AT = some s → s ≠ "" →
        EnvTokenProvider.get_token env now =
          (.ok ⟨tv, none⟩, ["Failed to parse token expiry: " ++ s])) ∧
    (∀ (env : Env) (now : Int) (r : CmdResult) (payload : JVal) (tv : String),
        r.returncode = 0 → pyStartsWith (pyStrip r.stdout) '\x7b' = true →
        json_loads (pyStrip r.stdout) = some payload →
        payload.get "token" = some (.jstr tv) → tv ≠ "" →
        payload.get "expires_at" = some (.jstr s) →
        CommandTokenProvider.get_token env (.ok r) now =
          (.ok ⟨tv, ttlExpiry env now⟩, ["Failed to parse token expiry: " ++ s])) ∧
    (∀ (env : Env) (now : Int), env ENV_TOKEN_TTL_SECONDS = none →
        ttlExpiry env now = none) := by
  have hlogs : parse_iso8601_logs s = ["Failed to parse token expiry: " ++ s] := by
    simp [parse_iso8601_logs, hbad]
  refine ⟨fun env now tv htok htv hes hsne => ?_,
    fun env now r payload tv hrc hbr hload hget htv hges => ?_,
    fun env now h => by simp [ttlExpiry, h]⟩
  · have h1 : pyTruthy (some tv) = true := by simp [pyTruthy, htv]
    have h2 : pyTruthy (some s) = true := by simp [pyTruthy, hsne]
    simp [EnvTokenProvider.get_token, h1, h2, htok, hes, optS, hbad, hlogs]
  · exact cmd_wrap_ok env r now
      (by simp [CommandTokenProvider.getTokenInner, hrc, hbr, hload, hget, htv,
        hges, hbad, hlogs])

/-- Witness for the amended C6 at the concrete value `"garbage"`. -/
theorem unparseable_expiry_nonfatal_witness :
    EnvTokenProvider.get_token
        (envOf [(ENV_TOKEN, "abc"), (ENV_TOKEN_EXPIRES_AT, "garbage")]) 0 =
      (.ok ⟨"abc", none⟩, ["Failed to parse token expiry: garbage"]) ∧
    CommandTokenProvider.get_token (envOf [(ENV_TOKEN_TTL_SECONDS, "100")])
        (.ok ⟨0, "\x7b\"token\":\"tok\",\"expires_at\":\"garbage\"\x7d", ""⟩) 0 =
      (.ok ⟨"tok", some 100⟩, ["Failed to parse token expiry: garbage"]) ∧
    ttlExpiry envN 0 = none := by
  have h := unparseable_expiry_nonfatal "garbage" rfl
  refine ⟨?_, ?_, h.2.2 envN 0 rfl⟩
  · exact (h.1 (envOf [(ENV_TOKEN, "abc"), (ENV_TOKEN_EXPIRES_AT, "garbage")]) 0
      "abc" (by decide) (by decide) (by decide) (by decide)).trans (by rfl)
  · exact (h.2.1 (envOf [(ENV_TOKEN_TTL_SECONDS, "100")]) 0
      ⟨0, "\x7b\"token\":\"tok\",\"expires_at\":\"garbage\"\x7d", ""⟩
      (.jobj [("token", .jstr "tok"), ("expires_at", .jstr "garbage")]) "tok"
      rfl rfl rfl rfl (by decide) rfl).trans (by rfl)

/-- **C9.** `set_token_provider(source)` installs a `CachedTokenProvider`
wrapping exactly the supplied source; every subsequent process-wide
`get_token()` call delegates to it without consulting configuration (for
any configuration inputs, no rebuild happens and the wrapped source is
preserved across calls), until `clear_token_provider()` drops the
provider, after which the next `get_token()` call rebuilds it from
configuration. -/
theorem selector_override_until_cleared {α : Type}
    (azAvail : Bool) (config_mode : String) (env env2 : Env) (p : α)
    (skewArg : Option Int)
    (runBase : BaseProvider α → Int → Except String Token)
    (st : Option (CachedProvider α)) (now : Int) :
    (set_token_provider env p skewArg st = some
      ⟨.externalP p,
       (match skewArg with | some k => k | none => resolveSkew env), none⟩) ∧
    (∀ c : CachedProvider α, c.provider = .externalP p →
      (singleton_get_token azAvail config_mode env2 runBase (some c) now).1 =
        (CachedTokenProvider.get_token (runBase (.externalP p)) c.skew_seconds
          c.cached now).1 ∧
      (singleton_get_token azAvail config_mode env2 runBase (some c) now).2.2 =
        false ∧
      ∃ c2, (singleton_get_token azAvail config_mode env2 runBase
          (some c) now).2.1 = some c2 ∧
        c2.provider = .externalP p ∧ c2.skew_seconds = c.skew_seconds) ∧
    (clear_token_provider st = none) ∧
    ((singleton_get_token azAvail config_mode env2 runBase
        (none : Option (CachedProvider α)) now).2.2 = true) ∧
    (∀ c : CachedProvider α,
        (build_provider_from_env α azAvail config_mode env2).1 = .ok c →
        (singleton_get_token azAvail config_mode env2 runBase
            (none : Option (CachedProvider α)) now).1 =
          (CachedTokenProvider.get_token (runBase c.provider) c.skew_seconds
            c.cached now).1) := by
  refine ⟨rfl, fun c hc => ?_, rfl, ?_, fun c hbuild => ?_⟩
  · refine ⟨by rw [← hc]; rfl, rfl, ⟨{ c with cached :=
      (CachedTokenProvider.get_token (runBase c.provider) c.skew_seconds
        c.cached now).2.1 }, rfl, by simpa using hc, rfl⟩⟩
  · show (singleton_get_token azAvail config_mode env2 runBase none now).2.2 = true
    unfold singleton_get_token
    cases (build_provider_from_env α azAvail config_mode env2).1 <;> rfl
  · unfold singleton_get_token
    rw [hbuild]

/-- Witness for C9 at concrete inputs (`α := Unit`). -/
theorem selector_override_until_cleared_witness :
    set_token_provider envN () none (none : Option (CachedProvider Unit)) =
      some ⟨.externalP (), 60, none⟩ ∧
    (singleton_get_token false "" envN runBaseW (some cachedW) 0).1 =
      .ok tokW ∧
    (singleton_get_token false "" envN runBaseW (some cachedW) 0).2.2 = false ∧
    clear_token_provider (some cachedW) = none ∧
    (singleton_get_token false "" envN runBaseW
        (none : Option (CachedProvider Unit)) 0).2.2 = true := by
  have h := selector_override_until_cleared false "" envN envN () none runBaseW
    (some cachedW) 0
  have h2 := h.2.1 cachedW rfl
  refine ⟨(selector_override_until_cleared false "" envN envN () none runBaseW
    none 0).1, h2.1.trans (by rfl), h2.2.1, h.2.2.1, h.2.2.2.1⟩

/-! ### The C1 invariant proof -/

/-- Updating a thread to a non-`locked` point, when it was not at
`locked`, does not change which threads are at `locked`. -/
theorem locked_update_iff {n : Nat} (f : Fin n → TState) (i : Fin n)
    (v : TState) (hv : v ≠ .locked) (hi : f i ≠ .locked) :
    (∃ j, Function.update f i v j = .locked) ↔ (∃ j, f j = .locked) := by
  constructor
  · rintro ⟨j, hj⟩
    by_cases h : j = i
    · subst h; rw [Function.update_same] at hj; exact absurd hj hv
    · rw [Function.update_noteq h] at hj; exact ⟨j, hj⟩
  · rintro ⟨j, hj⟩
    have h : j ≠ i := fun he => hi (he ▸ hj)
    exact ⟨j, by rw [Function.update_noteq h]; exact hj⟩

/-- Updating a thread to a non-`locked` point preserves uniqueness of
the `locked` thread. -/
theorem lockedUnique_update {n : Nat} {f : Fin n → TState} (i : Fin n)
    (v : TState) (hv : v ≠ .locked)
    (hu : ∀ a b, f a = .locked → f b = .locked → a = b) :
    ∀ a b, Function.update f i v a = .locked →
      Function.update f i v b = .locked → a = b := by
  intro a b ha hb
  by_cases h1 : a = i
  · subst h1; rw [Function.update_same] at ha; exact absurd ha hv
  · by_cases h2 : b = i
    · subst h2; rw [Function.update_same] at hb; exact absurd hb hv
    · rw [Function.update_noteq h1] at ha
      rw [Function.update_noteq h2] at hb
      exact hu a b ha hb

/-- Every interleaving step preserves the refresh invariant, provided
every token the source can return in this window is not yet expired. -/
theorem refresh_inv_step {n : Nat} {skew now : Int} {srcPossible : Token → Prop}
    (hfresh : ∀ t, srcPossible t → t.is_expired skew now = false)
    {s s2 : Sys n} (hstep : Step skew now srcPossible s s2)
    (hinv : RefreshInv skew now srcPossible s) :
    RefreshInv skew now srcPossible s2 := by
  cases hstep with
  | fastHit i t hstart hcached hval =>
      rcases hinv with ⟨hc, hv, hk, hl, hu⟩ | ⟨hc, hv, hlk, j, t', hp, hf, hoth⟩ |
        ⟨hc, t', hp, hcach, hk, hl, hu⟩
      · exfalso
        rw [hcached] at hv
        have h2 := cachedValid_some_false hv
        rw [hval] at h2
        exact Bool.noConfusion h2
      · exfalso
        rw [hcached] at hv
        have h2 := cachedValid_some_false hv
        rw [hval] at h2
        exact Bool.noConfusion h2
      · have ht : t = t' := by
          rw [hcach] at hcached
          exact (Option.some.inj hcached).symm
        refine Or.inr (Or.inr ⟨hc, t', hp, hcach, ?_, ?_, ?_⟩)
        · intro i0
          by_cases h : i0 = i
          · subst h
            simp only [Function.update_same, ht]
            exact Or.inr (Or.inr (Or.inr trivial))
          · simp only [Function.update_noteq h]
            exact hk i0
        · exact hl.trans (locked_update_iff s.ts i (.done t)
            (fun h => nomatch h) (by rw [hstart]; exact fun h => nomatch h)).symm
        · exact lockedUnique_update i (.done t) (fun h => nomatch h) hu
  | fastMiss i hstart hv2 =>
      rcases hinv with ⟨hc, hv, hk, hl, hu⟩ | ⟨hc, hv, hlk, j, t', hp, hf, hoth⟩ |
        ⟨hc, t', hp, hcach, hk, hl, hu⟩
      · refine Or.inl ⟨hc, hv, ?_, ?_, ?_⟩
        · intro i0
          by_cases h : i0 = i
          · subst h; simp only [Function.update_same]; exact Or.inr (Or.inl trivial)
          · simp only [Function.update_noteq h]; exact hk i0
        · exact hl.trans (locked_update_iff s.ts i .waiting
            (fun h => nomatch h) (by rw [hstart]; exact fun h => nomatch h)).symm
        · exact lockedUnique_update i .waiting (fun h => nomatch h) hu
      · have hji : j ≠ i := by
          intro he
          rw [he, hstart] at hf
          exact TState.noConfusion hf
        refine Or.inr (Or.inl ⟨hc, hv, hlk, j, t', hp, ?_, ?_⟩)
        · simp only [Function.update_noteq hji]; exact hf
        · intro i0 hi0
          by_cases h : i0 = i
          · subst h; simp only [Function.update_same]; exact Or.inr trivial
          · simp only [Function.update_noteq h]; exact hoth i0 hi0
      · exfalso
        rw [hcach] at hv2
        have h2 := cachedValid_some_false hv2
        rw [hfresh t' hp] at h2
        exact Bool.noConfusion h2
  | acquire i hwait hlock =>
      rcases hinv with ⟨hc, hv, hk, hl, hu⟩ | ⟨hc, hv, hlk, j, t', hp, hf, hoth⟩ |
        ⟨hc, t', hp, hcach, hk, hl, hu⟩
      · have hnolock : ∀ j, s.ts j ≠ .locked := by
          intro j hj
          have h2 := hl.mpr ⟨j, hj⟩
          rw [hlock] at h2
          exact Bool.noConfusion h2
        refine Or.inl ⟨hc, hv, ?_, ?_, ?_⟩
        · intro i0
          by_cases h : i0 = i
          · subst h; simp only [Function.update_same]; exact Or.inr (Or.inr trivial)
          · simp only [Function.update_noteq h]; exact hk i0
        · exact ⟨fun _ => ⟨i, Function.update_same i .locked s.ts⟩, fun _ => rfl⟩
        · intro a b ha hb
          by_cases h1 : a = i
          · by_cases h2 : b = i
            · rw [h1, h2]
            · simp only [Function.update_noteq h2] at hb
              exact absurd hb (hnolock b)
          · simp only [Function.update_noteq h1] at ha
            exact absurd ha (hnolock a)
      · exfalso
        rw [hlk] at hlock
        exact Bool.noConfusion hlock
      · have hnolock : ∀ j, s.ts j ≠ .locked := by
          intro j hj
          have h2 := hl.mpr ⟨j, hj⟩
          rw [hlock] at h2
          exact Bool.noConfusion h2
        refine Or.inr (Or.inr ⟨hc, t', hp, hcach, ?_, ?_, ?_⟩)
        · intro i0
          by_cases h : i0 = i
          · subst h; simp only [Function.update_same]; exact Or.inr (Or.inr (Or.inl trivial))
          · simp only [Function.update_noteq h]; exact hk i0
        · exact ⟨fun _ => ⟨i, Function.update_same i .locked s.ts⟩, fun _ => rfl⟩
        · intro a b ha hb
          by_cases h1 : a = i
          · by_cases h2 : b = i
            · rw [h1, h2]
            · simp only [Function.update_noteq h2] at hb
              exact absurd hb (hnolock b)
          · simp only [Function.update_noteq h1] at ha
            exact absurd ha (hnolock a)
  | recheckHit i t hlocked hcached hval =>
      rcases hinv with ⟨hc, hv, hk, hl, hu⟩ | ⟨hc, hv, hlk, j, t', hp, hf, hoth⟩ |
        ⟨hc, t', hp, hcach, hk, hl, hu⟩
      · exfalso
        rw [hcached] at hv
        have h2 := cachedValid_some_false hv
        rw [hval] at h2
        exact Bool.noConfusion h2
      · exfalso
        rw [hcached] at hv
        have h2 := cachedValid_some_false hv
        rw [hval] at h2
        exact Bool.noConfusion h2
      · have ht : t = t' := by
          rw [hcach] at hcached
          exact (Option.some.inj hcached).symm
        have hnolock : ∀ j, Function.update s.ts i (TState.done t) j ≠ .locked := by
          intro j hj
          by_cases h : j = i
          · subst h; rw [Function.update_same] at hj; exact nomatch hj
          · rw [Function.update_noteq h] at hj
            exact h (hu j i hj hlocked)
        refine Or.inr (Or.inr ⟨hc, t', hp, hcach, ?_, ?_, ?_⟩)
        · intro i0
          by_cases h : i0 = i
          · subst h
            simp only [Function.update_same, ht]
            exact Or.inr (Or.inr (Or.inr trivial))
          · simp only [Function.update_noteq h]; exact hk i0
        · constructor
          · intro h2; exact absurd h2 (by simp)
          · rintro ⟨j, hj⟩; exact absurd hj (hnolock j)
        · intro a b ha hb
          exact absurd ha (hnolock a)
  | fetch i t hlocked hv2 hpt =>
      rcases hinv with ⟨hc, hv, hk, hl, hu⟩ | ⟨hc, hv, hlk, j, t', hp, hf, hoth⟩ |
        ⟨hc, t', hp, hcach, hk, hl, hu⟩
      · refine Or.inr (Or.inl ⟨by simp [hc], hv, hl.mpr ⟨i, hlocked⟩, i, t, hpt,
          Function.update_same i (.fetched t) s.ts, ?_⟩)
        intro i0 hi0
        simp only [Function.update_noteq hi0]
        rcases hk i0 with h | h | h
        · exact Or.inl h
        · exact Or.inr h
        · exact absurd (hu i0 i h hlocked) hi0
      · exfalso
        have hij : i ≠ j := by
          intro he
          rw [he, hf] at hlocked
          exact TState.noConfusion hlocked
        rcases hoth i hij with h | h <;> rw [h] at hlocked <;>
          exact TState.noConfusion hlocked
      · exfalso
        rw [hcach] at hv2
        have h2 := cachedValid_some_false hv2
        rw [hfresh t' hp] at h2
        exact Bool.noConfusion h2
  | store i t hfet =>
      rcases hinv with ⟨hc, hv, hk, hl, hu⟩ | ⟨hc, hv, hlk, j, t', hp, hf, hoth⟩ |
        ⟨hc, t', hp, hcach, hk, hl, hu⟩
      · exfalso
        rcases hk i with h | h | h <;> rw [h] at hfet <;>
          exact TState.noConfusion hfet
      · have hij : i = j := by
          by_contra h
          rcases hoth i h with h1 | h1 <;> rw [h1] at hfet <;>
            exact TState.noConfusion hfet
        subst hij
        have htt : t = t' := by
          rw [hfet] at hf
          exact TState.fetched.inj hf
        subst htt
        have hnolock : ∀ a, Function.update s.ts i (TState.done t) a ≠ .locked := by
          intro a ha
          by_cases h : a = i
          · subst h; rw [Function.update_same] at ha; exact nomatch ha
          · rw [Function.update_noteq h] at ha
            rcases hoth a h with h1 | h1 <;> rw [h1] at ha <;>
              exact TState.noConfusion ha
        refine Or.inr (Or.inr ⟨hc, t, hp, rfl, ?_, ?_, ?_⟩)
        · intro i0
          by_cases h : i0 = i
          · subst h; simp only [Function.update_same]
            exact Or.inr (Or.inr (Or.inr trivial))
          · simp only [Function.update_noteq h]
            rcases hoth i0 h with h1 | h1
            · exact Or.inl h1
            · exact Or.inr (Or.inl h1)
        · constructor
          · intro h2; exact absurd h2 (by simp)
          · rintro ⟨a, ha⟩; exact absurd ha (hnolock a)
        · intro a b ha hb
          exact absurd ha (hnolock a)
      · exfalso
        rcases hk i with h | h | h | h <;> rw [h] at hfet <;>
          exact TState.noConfusion hfet

/-- The invariant holds initially when the cache starts absent or
expired (phase A). -/
theorem refresh_inv_init {n : Nat} (skew now : Int) (srcPossible : Token → Prop)
    (c0 : Option Token) (hc0 : cachedValid c0 skew now = false) :
    RefreshInv skew now srcPossible (Sys.init n c0) := by
  refine Or.inl ⟨rfl, hc0, fun i => Or.inl rfl, ?_,
    fun a b ha hb => nomatch ha⟩
  constructor
  · intro h; exact nomatch h
  · rintro ⟨j, hj⟩; exact nomatch hj

/-- The invariant holds in every reachable state. -/
theorem refresh_inv_reachable {n : Nat} {skew now : Int}
    {srcPossible : Token → Prop}
    (hfresh : ∀ t, srcPossible t → t.is_expired skew now = false)
    {a s : Sys n} (hreach : Reachable skew now srcPossible a s)
    (ha : RefreshInv skew now srcPossible a) :
    RefreshInv skew now srcPossible s := by
  induction hreach with
  | refl => exact ha
  | tail _ hstep ih => exact refresh_inv_step hfresh hstep ih

/-- **C1.** With the clock frozen inside an expiry window (initial cache
absent or expired, every token the source can return still valid), any
interleaved execution of N ≥ 1 threads each running `get_token` once,
in which every thread completes, performs exactly one underlying source
call, and all N threads return the same refreshed token. -/
theorem concurrent_refresh_single_call {n : Nat} (skew now : Int)
    (srcPossible : Token → Prop) (c0 : Option Token) (s : Sys n)
    (hfresh : ∀ t, srcPossible t → t.is_expired skew now = false)
    (hc0 : cachedValid c0 skew now = false)
    (hreach : Reachable skew now srcPossible (Sys.init n c0) s)
    (hdone : ∀ i, ∃ r, s.ts i = TState.done r) (hn : 0 < n) :
    s.calls = 1 ∧ ∃ t, srcPossible t ∧ ∀ i, s.ts i = TState.done t := by
  have hinv := refresh_inv_reachable hfresh hreach
    (refresh_inv_init skew now srcPossible c0 hc0)
  rcases hinv with ⟨hc, hv, hk, hl, hu⟩ | ⟨hc, hv, hlk, j, t', hp, hf, hoth⟩ |
    ⟨hc, t', hp, hcach, hk, hl, hu⟩
  · exfalso
    obtain ⟨r, hr⟩ := hdone ⟨0, hn⟩
    rcases hk ⟨0, hn⟩ with h | h | h <;> rw [hr] at h <;>
      exact TState.noConfusion h
  · exfalso
    obtain ⟨r, hr⟩ := hdone j
    rw [hr] at hf
    exact TState.noConfusion hf
  · refine ⟨hc, t', hp, fun i => ?_⟩
    obtain ⟨r, hr⟩ := hdone i
    rcases hk i with h | h | h | h
    · rw [hr] at h; exact TState.noConfusion h
    · rw [hr] at h; exact TState.noConfusion h
    · rw [hr] at h; exact TState.noConfusion h
    · exact h

/-- Witness for C1: two threads, thread 0 performing the whole refresh
and thread 1 hitting the refreshed cache on its fast path. -/
theorem concurrent_refresh_single_call_witness :
    s5C.calls = 1 ∧ s5C.ts 0 = TState.done srcTokC ∧
      s5C.ts 1 = TState.done srcTokC := by
  have hstep1 : Step 60 0 srcPossibleC s0C s1C :=
    Step.fastMiss s0C 0 (by decide) (by decide)
  have hstep2 : Step 60 0 srcPossibleC s1C s2C :=
    Step.acquire s1C 0 (by decide) (by decide)
  have hstep3 : Step 60 0 srcPossibleC s2C s3C :=
    Step.fetch s2C 0 srcTokC (by decide) (by decide) rfl
  have hstep4 : Step 60 0 srcPossibleC s3C s4C :=
    Step.store s3C 0 srcTokC (by decide)
  have hstep5 : Step 60 0 srcPossibleC s4C s5C :=
    Step.fastHit s4C 1 srcTokC (by decide) (by decide) (by decide)
  have hreach : Reachable 60 0 srcPossibleC (Sys.init 2 none) s5C :=
    Relation.ReflTransGen.tail
      (Relation.ReflTransGen.tail
        (Relation.ReflTransGen.tail
          (Relation.ReflTransGen.tail
            (Relation.ReflTransGen.tail Relation.ReflTransGen.refl hstep1)
            hstep2)
          hstep3)
        hstep4)
      hstep5
  have h := concurrent_refresh_single_call 60 0 srcPossibleC none s5C
    (fun t ht => by
      have he : t = srcTokC := ht
      rw [he]; decide)
    (by decide) hreach
    (by
      intro i
      fin_cases i
      · exact ⟨srcTokC, by decide⟩
      · exact ⟨srcTokC, by decide⟩)
    (by decide)
  obtain ⟨hcalls, t, hpt, hall⟩ := h
  have ht : t = srcTokC := hpt
  subst ht
  exact ⟨hcalls, hall 0, hall 1⟩

end PgToken
